import Mathlib

/-!
Verification of the Structured Output Extraction & Validation Engine of the
hablara repository (scripts `mlx_analyze.py`, `mlx_transcribe.py`,
`validate-quantized-model.py`), as a shallow embedding in Lean 4.

Texts are modelled as `List Char`, Python floats as `ℚ` (and as `ℝ` where a
square root appears), dicts as association lists, raised exceptions as
`Except` errors.
-/

namespace Hablara

/-! ## Extractor (mlx_analyze.py, lines 147-167)

The brace-counting scan that extracts the first JSON object block from the raw
model response.  The Python code finds the index of the first opening brace,
then walks forward keeping a counter: `+1` on every opening brace, `-1` on
every closing brace, stopping one past the brace that returns the counter to
zero.  It does not inspect quote characters at all. -/

/-- Index of the first opening brace, mirroring `response_text.index("{")`
guarded by `"{" in response_text`. -/
def firstBraceIdx : List Char → Option Nat
  | [] => none
  | c :: rest => if c = '{' then some 0 else (firstBraceIdx rest).map (· + 1)

/-- The forward scan from mlx_analyze.py lines 150-159: `depth` is Python's
`brace_count`; the returned value is the length of the scanned span, i.e.
Python's `json_end - json_start` set at the `break`.  `none` models the loop
running off the end of the text without the counter ever returning to zero
(so Python's `json_end <= json_start` test fires). -/
def braceScan : List Char → Int → Option Nat
  | [], _ => none
  | c :: rest, depth =>
    if c = '{' then (braceScan rest (depth + 1)).map (· + 1)
    else if c = '}' then
      if depth - 1 = 0 then some 1
      else (braceScan rest (depth - 1)).map (· + 1)
    else (braceScan rest depth).map (· + 1)

/-- The two extraction failures of mlx_analyze.py: `noOpeningBrace` is the
`raise ValueError("No JSON found in model response")` taken when `"{" not in
response_text`; `unbalancedBraces` is the
`raise ValueError("No complete JSON found in model response")` taken when
`json_end <= json_start` after the scan. -/
inductive ExtractError where
  | noOpeningBrace
  | unbalancedBraces
deriving DecidableEq

/-- The whole extraction step of `analyze_emotion` / `analyze_fallacy`
(identical code in both): locate the first `{`, scan for the matching close,
return the slice `response_text[json_start:json_end]`. -/
def extractFirstJsonObject (s : List Char) : Except ExtractError (List Char) :=
  match firstBraceIdx s with
  | none => .error .noOpeningBrace
  | some start =>
    match braceScan (s.drop start) 0 with
    | none => .error .unbalancedBraces
    | some n => .ok ((s.drop start).take n)

/-- Per-character contribution to the brace counter. -/
def braceDelta (c : Char) : Int :=
  if c = '{' then 1 else if c = '}' then -1 else 0

/-- Net brace balance of a text: the value of Python's `brace_count` after
scanning the whole list. -/
def braceBal (l : List Char) : Int :=
  (l.map braceDelta).sum

/-- The scan from a position never returns the counter to zero before the end
of the input (Python's for-loop runs off the end without `break`). -/
def neverCloses (l : List Char) : Prop :=
  ∀ k, 0 < k → k ≤ l.length → braceBal (l.take k) ≠ 0

theorem braceBal_nil : braceBal [] = 0 := rfl

theorem braceBal_cons (c : Char) (l : List Char) :
    braceBal (c :: l) = braceDelta c + braceBal l := by
  simp [braceBal]

theorem braceScan_cons (c : Char) (rest : List Char) (d : Int) :
    braceScan (c :: rest) d =
      if c = '}' ∧ d - 1 = 0 then some 1
      else (braceScan rest (d + braceDelta c)).map (· + 1) := by
  by_cases h1 : c = '{'
  · have h2 : ¬ (c = '}' ∧ d - 1 = 0) := by
      rintro ⟨h, -⟩; rw [h1] at h; exact absurd h (by decide)
    simp [braceScan, braceDelta, h1, h2]
  · by_cases h2 : c = '}'
    · by_cases h3 : d - 1 = 0
      · simp [braceScan, h1, h2, h3]
      · simp [braceScan, braceDelta, h1, h2, h3, sub_eq_add_neg]
    · have h3 : ¬ (c = '}' ∧ d - 1 = 0) := by rintro ⟨h, -⟩; exact h2 h
      simp [braceScan, braceDelta, h1, h2, h3]

theorem one_le_add_braceDelta (c : Char) (d : Int) (hd : 1 ≤ d)
    (hbrk : ¬ (c = '}' ∧ d - 1 = 0)) : 1 ≤ d + braceDelta c := by
  by_cases h1 : c = '{'
  · simp [braceDelta, h1]; omega
  · by_cases h2 : c = '}'
    · have h3 : d - 1 ≠ 0 := fun h => hbrk ⟨h2, h⟩
      simp [braceDelta, h1, h2]; omega
    · simp [braceDelta, h1, h2]; omega

theorem shiftedNeverCloses_cons (c : Char) (rest : List Char) (d : Int) :
    (∀ k, 0 < k → k ≤ (c :: rest).length → d + braceBal ((c :: rest).take k) ≠ 0) ↔
      (d + braceDelta c ≠ 0 ∧
        ∀ k, 0 < k → k ≤ rest.length → (d + braceDelta c) + braceBal (rest.take k) ≠ 0) := by
  constructor
  · intro h
    refine ⟨?_, ?_⟩
    · have := h 1 (by omega) (by simp)
      simpa [braceBal_cons, braceBal_nil] using this
    · intro k hk hk'
      have := h (k + 1) (by omega) (by simp; omega)
      rw [List.take_succ_cons, braceBal_cons] at this
      omega
  · rintro ⟨h1, h2⟩ k hk hk'
    obtain ⟨k', rfl⟩ : ∃ k', k = k' + 1 := ⟨k - 1, by omega⟩
    rw [List.take_succ_cons, braceBal_cons]
    rcases Nat.eq_zero_or_pos k' with h0 | hpos
    · subst h0; simpa [braceBal_nil] using h1
    · have := h2 k' hpos (by simp at hk'; omega)
      omega

theorem braceScan_none_iff (l : List Char) :
    ∀ d : Int, 1 ≤ d →
      (braceScan l d = none ↔
        ∀ k, 0 < k → k ≤ l.length → d + braceBal (l.take k) ≠ 0) := by
  induction l with
  | nil =>
    intro d hd
    simp only [braceScan, List.length_nil, true_iff]
    intro k hk hk'
    omega
  | cons c rest ih =>
    intro d hd
    rw [braceScan_cons, shiftedNeverCloses_cons]
    by_cases hbrk : c = '}' ∧ d - 1 = 0
    · rw [if_pos hbrk]
      obtain ⟨hc, hd0⟩ := hbrk
      constructor
      · intro h; exact absurd h (by simp)
      · rintro ⟨h1, -⟩
        exact absurd (by simp [braceDelta, hc]; omega) h1
    · rw [if_neg hbrk]
      have hdd : 1 ≤ d + braceDelta c := one_le_add_braceDelta c d hd hbrk
      rw [Option.map_eq_none', ih (d + braceDelta c) hdd]
      constructor
      · intro h; exact ⟨by omega, h⟩
      · rintro ⟨-, h⟩; exact h

theorem braceScan_some (l : List Char) :
    ∀ (d : Int) (n : Nat), 1 ≤ d → braceScan l d = some n →
      0 < n ∧ n ≤ l.length ∧ d + braceBal (l.take n) = 0 ∧
        ∀ m, 0 < m → m < n → d + braceBal (l.take m) ≠ 0 := by
  induction l with
  | nil => intro d n hd h; simp [braceScan] at h
  | cons c rest ih =>
    intro d n hd h
    rw [braceScan_cons] at h
    by_cases hbrk : c = '}' ∧ d - 1 = 0
    · rw [if_pos hbrk] at h
      obtain ⟨hc, hd0⟩ := hbrk
      obtain rfl : (1 : Nat) = n := by simpa using h
      refine ⟨by omega, by simp, ?_, ?_⟩
      · have : braceDelta c = -1 := by simp [braceDelta, hc]
        simp [braceBal_cons, braceBal_nil, this]
        omega
      · intro m hm hm'; omega
    · rw [if_neg hbrk] at h
      have hdd : 1 ≤ d + braceDelta c := one_le_add_braceDelta c d hd hbrk
      obtain ⟨n', hn', rfl⟩ : ∃ n', braceScan rest (d + braceDelta c) = some n' ∧ n' + 1 = n := by
        cases hsc : braceScan rest (d + braceDelta c) with
        | none => rw [hsc] at h; simp at h
        | some m =>
          rw [hsc] at h
          exact ⟨m, rfl, by simpa using h⟩
      obtain ⟨h1, h2, h3, h4⟩ := ih (d + braceDelta c) n' hdd hn'
      refine ⟨by omega, by simp; omega, ?_, ?_⟩
      · rw [List.take_succ_cons, braceBal_cons]
        omega
      · intro m hm hm'
        obtain ⟨m', rfl⟩ : ∃ m', m = m' + 1 := ⟨m - 1, by omega⟩
        rw [List.take_succ_cons, braceBal_cons]
        rcases Nat.eq_zero_or_pos m' with h0 | hpos
        · subst h0; simp [braceBal_nil]; omega
        · have := h4 m' hpos (by omega)
          omega

theorem firstBraceIdx_none_iff (l : List Char) :
    firstBraceIdx l = none ↔ '{' ∉ l := by
  induction l with
  | nil => simp [firstBraceIdx]
  | cons c rest ih =>
    by_cases hc : c = '{'
    · simp [firstBraceIdx, hc]
    · rw [firstBraceIdx, if_neg hc, Option.map_eq_none', ih]
      constructor
      · intro h hm
        rcases List.mem_cons.mp hm with h1 | h2
        · exact hc h1.symm
        · exact h h2
      · intro h hm
        exact h (List.mem_cons_of_mem c hm)

theorem firstBraceIdx_drop (l : List Char) :
    ∀ i, firstBraceIdx l = some i → ∃ rest, l.drop i = '{' :: rest := by
  induction l with
  | nil => intro i h; simp [firstBraceIdx] at h
  | cons c rest ih =>
    intro i h
    by_cases hc : c = '{'
    · obtain rfl : (0 : Nat) = i := by simpa [firstBraceIdx, hc] using h
      exact ⟨rest, by simp [hc]⟩
    · obtain ⟨i', hi', rfl⟩ : ∃ i', firstBraceIdx rest = some i' ∧ i' + 1 = i := by
        rw [firstBraceIdx, if_neg hc] at h
        cases hsc : firstBraceIdx rest with
        | none => rw [hsc] at h; simp at h
        | some m => rw [hsc] at h; exact ⟨m, rfl, by simpa using h⟩
      obtain ⟨r, hr⟩ := ih i' hi'
      exact ⟨r, by simpa using hr⟩

theorem mem_of_firstBraceIdx (s : List Char) (i : Nat)
    (h : firstBraceIdx s = some i) : '{' ∈ s := by
  obtain ⟨rest, hdrop⟩ := firstBraceIdx_drop s i h
  have : '{' ∈ s.drop i := by rw [hdrop]; exact List.mem_cons_self _ _
  exact List.mem_of_mem_drop this

theorem braceScan_at_brace (rest : List Char) :
    braceScan ('{' :: rest) 0 = (braceScan rest 1).map (· + 1) := by
  rw [braceScan_cons]
  have h1 : ¬('{' = '}' ∧ (0 : Int) - 1 = 0) := by
    rintro ⟨h, -⟩; exact absurd h (by decide)
  rw [if_neg h1]
  norm_num [braceDelta]

theorem neverCloses_brace_iff (rest : List Char) :
    neverCloses ('{' :: rest) ↔
      ∀ k, 0 < k → k ≤ rest.length → (1 : Int) + braceBal (rest.take k) ≠ 0 := by
  unfold neverCloses
  constructor
  · intro h
    have h0 : ∀ k, 0 < k → k ≤ ('{' :: rest).length →
        (0 : Int) + braceBal (('{' :: rest).take k) ≠ 0 := by
      intro k hk hk'; simpa using h k hk hk'
    have := (shiftedNeverCloses_cons '{' rest 0).mp h0
    intro k hk hk'
    have h2 := this.2 k hk hk'
    simpa [braceDelta] using h2
  · intro h k hk hk'
    have hsplit : (0 : Int) + braceDelta '{' ≠ 0 ∧
        ∀ k, 0 < k → k ≤ rest.length →
          ((0 : Int) + braceDelta '{') + braceBal (rest.take k) ≠ 0 := by
      refine ⟨by simp [braceDelta], ?_⟩
      intro k2 hk2 hk2'
      simpa [braceDelta] using h k2 hk2 hk2'
    have := (shiftedNeverCloses_cons '{' rest 0).mpr hsplit k hk hk'
    simpa using this

/-- C5: the Extractor fails with exactly the two error kinds of
mlx_analyze.py and they cover all failure inputs: `noOpeningBrace` exactly on
inputs with no `{` character, `unbalancedBraces` exactly when the scan from
the first `{` reaches the end of the input with the counter never having
returned to zero; every error is one of these two. -/
theorem extract_error_characterization (s : List Char) :
    (extractFirstJsonObject s = .error .noOpeningBrace ↔ '{' ∉ s) ∧
    (extractFirstJsonObject s = .error .unbalancedBraces ↔
      ∃ i, firstBraceIdx s = some i ∧ neverCloses (s.drop i)) ∧
    (∀ e, extractFirstJsonObject s = .error e →
      e = .noOpeningBrace ∨ e = .unbalancedBraces) := by
  cases hfb : firstBraceIdx s with
  | none =>
    have hmem : '{' ∉ s := (firstBraceIdx_none_iff s).mp hfb
    refine ⟨by simp [extractFirstJsonObject, hfb, hmem], ?_, ?_⟩
    · constructor
      · intro h
        simp [extractFirstJsonObject, hfb] at h
      · rintro ⟨i, hi, -⟩
        exact absurd hi (by simp)
    · intro e he
      simp only [extractFirstJsonObject, hfb] at he
      left
      exact (Except.error.injEq _ _ |>.mp he).symm
  | some i =>
    obtain ⟨rest, hdrop⟩ := firstBraceIdx_drop s i hfb
    have hmem : '{' ∈ s := mem_of_firstBraceIdx s i hfb
    have hcons : braceScan (s.drop i) 0 = (braceScan rest 1).map (· + 1) := by
      rw [hdrop, braceScan_at_brace]
    have hnc : neverCloses (s.drop i) ↔
        ∀ k, 0 < k → k ≤ rest.length → (1 : Int) + braceBal (rest.take k) ≠ 0 := by
      rw [hdrop, neverCloses_brace_iff]
    cases hsc : braceScan (s.drop i) 0 with
    | none =>
      have hrest : braceScan rest 1 = none := by
        rw [hcons] at hsc
        exact Option.map_eq_none'.mp hsc
      have hforall := (braceScan_none_iff rest 1 le_rfl).mp hrest
      refine ⟨?_, ?_, ?_⟩
      · constructor
        · intro h
          simp [extractFirstJsonObject, hfb, hsc] at h
        · intro h
          exact absurd hmem h
      · constructor
        · intro _
          exact ⟨i, rfl, hnc.mpr hforall⟩
        · intro _
          simp [extractFirstJsonObject, hfb, hsc]
      · intro e he
        simp only [extractFirstJsonObject, hfb, hsc] at he
        right
        exact (Except.error.injEq _ _ |>.mp he).symm
    | some n =>
      have hex : extractFirstJsonObject s = .ok ((s.drop i).take n) := by
        simp [extractFirstJsonObject, hfb, hsc]
      refine ⟨?_, ?_, ?_⟩
      · constructor
        · intro h
          rw [hex] at h
          exact absurd h (by simp)
        · intro h
          exact absurd hmem h
      · constructor
        · intro h
          rw [hex] at h
          exact absurd h (by simp)
        · rintro ⟨i', hi', hnever⟩
          obtain rfl : i = i' := by simpa using hi'
          exfalso
          rw [hcons] at hsc
          obtain ⟨n', hn', -⟩ := Option.map_eq_some'.mp hsc
          obtain ⟨h1, h2, h3, -⟩ := braceScan_some rest 1 n' le_rfl hn'
          exact (hnc.mp hnever) n' h1 h2 h3
      · intro e he
        rw [hex] at he
        exact absurd he (by simp)

theorem extract_error_characterization_witness :
    extractFirstJsonObject ("no object literal at all".toList) =
        .error .noOpeningBrace ∧
      ∃ i, firstBraceIdx ("\x7b\"a\": 1".toList) = some i ∧
        neverCloses (("\x7b\"a\": 1".toList).drop i) :=
  ⟨(extract_error_characterization ("no object literal at all".toList)).1.mpr
      (by decide),
    (extract_error_characterization ("\x7b\"a\": 1".toList)).2.1.mp rfl⟩

/-- C6: whenever extraction succeeds, the returned span starts at an opening
brace, is brace-balanced, and no shorter nonempty prefix of it is balanced —
so the span closes at the brace matching the outer `{`, not an inner one;
moreover on `noise {"a": {"b": 1}} noise` (brace characters spelled in the
statement via escape codes) the extraction returns exactly the nested literal
`{"a": {"b": 1}}`, the first balanced span. -/
theorem extract_first_minimal_balanced_span :
    (∀ s t : List Char, extractFirstJsonObject s = .ok t →
      t.head? = some '{' ∧ braceBal t = 0 ∧
        ∀ m, 0 < m → m < t.length → braceBal (t.take m) ≠ 0) ∧
    extractFirstJsonObject ("noise \x7b\"a\": \x7b\"b\": 1\x7d\x7d noise".toList) =
      .ok ("\x7b\"a\": \x7b\"b\": 1\x7d\x7d".toList) := by
  constructor
  · intro s t h
    cases hfb : firstBraceIdx s with
    | none => simp [extractFirstJsonObject, hfb] at h
    | some i =>
      obtain ⟨rest, hdrop⟩ := firstBraceIdx_drop s i hfb
      cases hsc : braceScan (s.drop i) 0 with
      | none => simp [extractFirstJsonObject, hfb, hsc] at h
      | some n =>
        have ht : t = (s.drop i).take n := by
          simp only [extractFirstJsonObject, hfb, hsc] at h
          exact (Except.ok.injEq _ _ |>.mp h).symm
        rw [hdrop] at hsc ht
        rw [braceScan_at_brace] at hsc
        obtain ⟨n', hn', hfn⟩ := Option.map_eq_some'.mp hsc
        obtain rfl : n = n' + 1 := hfn.symm
        obtain ⟨h1, h2, h3, h4⟩ := braceScan_some rest 1 n' le_rfl hn'
        rw [List.take_succ_cons] at ht
        subst ht
        refine ⟨rfl, ?_, ?_⟩
        · rw [braceBal_cons]
          have : braceDelta '{' = 1 := by decide
          omega
        · intro m hm hm'
          obtain ⟨m', rfl⟩ : ∃ m', m = m' + 1 := ⟨m - 1, by omega⟩
          have hlen : (rest.take n').length = n' := by
            rw [List.length_take]
            omega
          have hm'' : m' < n' := by
            simp only [List.length_cons, hlen] at hm'
            omega
          rw [List.take_succ_cons, List.take_take, braceBal_cons,
            Nat.min_eq_left hm''.le]
          have hdel : braceDelta '{' = 1 := by decide
          rcases Nat.eq_zero_or_pos m' with h0 | hpos
          · subst h0
            simp [braceBal_nil, hdel]
          · have := h4 m' hpos hm''
            omega
  · rfl

theorem extract_first_minimal_balanced_span_witness :
    ("\x7b\"a\": \x7b\"b\": 1\x7d\x7d".toList).head? = some '{' ∧
      braceBal ("\x7b\"a\": \x7b\"b\": 1\x7d\x7d".toList) = 0 :=
  ⟨(extract_first_minimal_balanced_span.1
      ("noise \x7b\"a\": \x7b\"b\": 1\x7d\x7d noise".toList)
      ("\x7b\"a\": \x7b\"b\": 1\x7d\x7d".toList) rfl).1,
    (extract_first_minimal_balanced_span.1
      ("noise \x7b\"a\": \x7b\"b\": 1\x7d\x7d noise".toList)
      ("\x7b\"a\": \x7b\"b\": 1\x7d\x7d".toList) rfl).2.1⟩

/-- C1 (code bug): the scan does not track quote state, so on the well-formed
object literal whose quoted string value contains a closing-brace character —
the input `\x7b"a": "\x7d"\x7d` — extraction stops at the brace inside the
quoted string and returns the truncated span `\x7b"a": "\x7d`, a strict
truncation of the full literal, instead of the whole literal the spec
requires. -/
theorem extract_quoted_brace_code_bug :
    extractFirstJsonObject ("\x7b\"a\": \"\x7d\"\x7d".toList) =
        .ok ("\x7b\"a\": \"\x7d".toList) ∧
      "\x7b\"a\": \"\x7d".toList ≠ "\x7b\"a\": \"\x7d\"\x7d".toList :=
  ⟨rfl, by decide⟩

/-! ## SchemaValidator (mlx_analyze.py, lines 165-173 and 228-236)

`json.loads` produces a Python dict; the validation step only checks key
presence at the top level and raises a single fixed `ValueError` message per
analysis kind when a required key is absent. -/

/-- JSON-compatible values as produced by `json.loads`: strings, numbers,
booleans, null, arrays, objects. -/
inductive JVal where
  | str (s : String)
  | num (q : ℚ)
  | bool (b : Bool)
  | null
  | arr (xs : List JVal)
  | obj (fields : List (String × JVal))

/-- A parsed top-level record: the dict `result` in the Python code. -/
abbrev Record := List (String × JVal)

/-- Python's `key in result` membership test on the parsed dict. -/
def hasKey (r : Record) (k : String) : Bool :=
  r.any (fun p => p.1 == k)

/-- mlx_analyze.py lines 170-173: the required-field check of
`analyze_emotion` — one combined presence test, one fixed error message. -/
def checkEmotionFields (result : Record) : Except String Record :=
  if !hasKey result "primary" || !hasKey result "confidence" then
    .error "Invalid emotion JSON: missing required fields"
  else
    .ok result

/-- mlx_analyze.py lines 233-236: the required-field check of
`analyze_fallacy`. -/
def checkFallacyFields (result : Record) : Except String Record :=
  if !hasKey result "fallacies" || !hasKey result "enrichment" then
    .error "Invalid fallacy JSON: missing required fields"
  else
    .ok result

/-- True when `needle` is an initial run of `hay` (used to express that an
error message does not mention a key name). -/
def startsWithSeq : List Char → List Char → Bool
  | [], _ => true
  | _ :: _, [] => false
  | a :: as, b :: bs => a == b && startsWithSeq as bs

/-- True when `needle` occurs contiguously anywhere inside `hay`. -/
def containsSeq (needle : List Char) : List Char → Bool
  | [] => startsWithSeq needle []
  | c :: rest => startsWithSeq needle (c :: rest) || containsSeq needle rest

/-- C3 (counterexample): validating `\x7b"primary": "joy"\x7d` as Emotion
produces the same fixed error value as a record missing `primary` instead,
and that error message does not contain the key name `confidence` at all —
so the failure does not name the first missing key, contradicting the
claimed `MissingField("confidence")`. -/
theorem validator_generic_error_counterexample :
    checkEmotionFields [("primary", JVal.str "joy")] =
        .error "Invalid emotion JSON: missing required fields" ∧
      checkEmotionFields [("confidence", JVal.num (87 / 100))] =
        .error "Invalid emotion JSON: missing required fields" ∧
      containsSeq ("confidence".toList)
        ("Invalid emotion JSON: missing required fields".toList) = false :=
  ⟨rfl, rfl, by decide⟩

/-- C3 (amended): for every parsed record missing at least one required key
of its kind, validation fails — but with the single fixed per-kind message
(`Invalid emotion JSON: missing required fields` /
`Invalid fallacy JSON: missing required fields`), which does not name the
missing key. -/
theorem validator_missing_key_generic_error :
    (∀ r : Record,
      (hasKey r "primary" = false ∨ hasKey r "confidence" = false) →
        checkEmotionFields r =
          .error "Invalid emotion JSON: missing required fields") ∧
    (∀ r : Record,
      (hasKey r "fallacies" = false ∨ hasKey r "enrichment" = false) →
        checkFallacyFields r =
          .error "Invalid fallacy JSON: missing required fields") := by
  constructor
  · intro r h
    rcases h with h | h <;> simp [checkEmotionFields, h]
  · intro r h
    rcases h with h | h <;> simp [checkFallacyFields, h]

theorem validator_missing_key_generic_error_witness :
    checkEmotionFields [] =
        .error "Invalid emotion JSON: missing required fields" ∧
      checkFallacyFields [("fallacies", JVal.arr [])] =
        .error "Invalid fallacy JSON: missing required fields" :=
  ⟨validator_missing_key_generic_error.1 [] (Or.inl (by decide)),
    validator_missing_key_generic_error.2 [("fallacies", JVal.arr [])]
      (Or.inr (by decide))⟩

/-- C4: for every parsed record that has both required Emotion keys, the
validator returns the record unchanged — no coercion, no default-filling;
the keys' values are not inspected at all, so wrong-typed values pass
through as-is. -/
theorem validator_identity_on_valid_emotion :
    ∀ r : Record, hasKey r "primary" = true → hasKey r "confidence" = true →
      checkEmotionFields r = .ok r := by
  intro r h1 h2
  simp [checkEmotionFields, h1, h2]

theorem validator_identity_on_valid_emotion_witness :
    checkEmotionFields
        [("primary", JVal.str "joy"), ("confidence", JVal.str "high")] =
      .ok [("primary", JVal.str "joy"), ("confidence", JVal.str "high")] :=
  validator_identity_on_valid_emotion
    [("primary", JVal.str "joy"), ("confidence", JVal.str "high")]
    (by decide) (by decide)

/-! ## HallucinationGate (mlx_transcribe.py, lines 140-151) -/

/-- The suppression decision of mlx_transcribe.py line 141:
`is_hallucination` is set exactly when
`(no_speech_prob > 0.5 and avg_logprob < -0.8) or no_speech_prob > 0.8`. -/
def shouldSuppress (no_speech_prob avg_logprob : ℚ) : Bool :=
  if (no_speech_prob > 0.5 ∧ avg_logprob < -0.8) ∨ no_speech_prob > 0.8 then
    true
  else
    false

/-- The gate rule as the spec states it, for the refinement comparison. -/
def gateSpec (no_speech_prob avg_logprob : ℚ) : Prop :=
  (no_speech_prob > 0.5 ∧ avg_logprob < -0.8) ∨ no_speech_prob > 0.8

/-- C2: the gate suppresses exactly when the spec's disjunction of the two
tripwires holds, and the spec's three worked examples evaluate as stated. -/
theorem gate_iff_spec_and_examples :
    (∀ p l : ℚ, shouldSuppress p l = true ↔ gateSpec p l) ∧
      shouldSuppress 0.6 (-0.9) = true ∧
      shouldSuppress 0.9 (-0.1) = true ∧
      shouldSuppress 0.3 (-0.9) = false := by
  refine ⟨?_, ?_, ?_, ?_⟩
  · intro p l
    simp [shouldSuppress, gateSpec]
  · norm_num [shouldSuppress]
  · norm_num [shouldSuppress]
  · norm_num [shouldSuppress]

theorem gate_iff_spec_and_examples_witness : gateSpec 0.6 (-0.9) :=
  (gate_iff_spec_and_examples.1 0.6 (-0.9)).mp
    gate_iff_spec_and_examples.2.1

/-! ## Transcription output assembly (mlx_transcribe.py, lines 136-188)

The happy path of `main` after `engine.transcribe` returned: read the two
confidence signals, decide suppression, build the `TranscriptionResult`
JSON object, print it and exit 0.  A triggered gate prints a warning line to
stderr and empties the transcript, nothing else. -/

/-- One transcription segment after the coercion loop of lines 170-183 (the
Python key `end` is spelled `stop` here because `end` is a Lean keyword). -/
structure Segment where
  start : ℚ
  stop : ℚ
  text : String
deriving DecidableEq

/-- The fields `main` reads off the engine's result object (`getattr`
defaults already applied). -/
structure STTResult where
  text : String
  language : Option String
  segments : List Segment
  no_speech_prob : ℚ
  avg_logprob : ℚ
deriving DecidableEq

/-- The stderr warning of lines 143-151, carrying the two signal values. -/
inductive Diagnostic where
  | hallucinationDetected (no_speech_prob avg_logprob : ℚ)
deriving DecidableEq

/-- The `output` dict of lines 159-184. -/
structure TranscriptionOutput where
  text : String
  language : String
  segments : List Segment
  speech_duration_sec : ℚ
  total_duration_sec : ℚ
deriving DecidableEq

/-- What the happy path of `main` produces: the JSON object on stdout, the
diagnostics on stderr, and the process exit code. -/
structure MainResult where
  output : TranscriptionOutput
  warnings : List Diagnostic
  exitCode : Nat
deriving DecidableEq

/-- Python truthiness of an optional string: `None` and `""` are falsy. -/
def pyTruthy : Option String → Bool
  | some s => !(s == "")
  | none => false

/-- Line 161: `getattr(result, "language", None) or args.language or "de"`. -/
def chooseLanguage (resLang argLang : Option String) : String :=
  if pyTruthy resLang then resLang.getD ""
  else if pyTruthy argLang then argLang.getD ""
  else "de"

/-- Lines 136-188 of mlx_transcribe.py: gate decision, warning, output
object (text emptied under suppression, segments filled only when not
suppressed and nonempty), exit 0. -/
def buildOutput (result : STTResult) (argLanguage : Option String)
    (audioDuration : ℚ) : MainResult :=
  let is_hallucination :=
    shouldSuppress result.no_speech_prob result.avg_logprob
  let warnings :=
    if is_hallucination then
      [Diagnostic.hallucinationDetected result.no_speech_prob
        result.avg_logprob]
    else []
  let text := if is_hallucination then "" else result.text
  let segments :=
    if !is_hallucination && !result.segments.isEmpty then result.segments
    else []
  { output :=
      { text := text
        language := chooseLanguage result.language argLanguage
        segments := segments
        speech_duration_sec := audioDuration
        total_duration_sec := audioDuration }
    warnings := warnings
    exitCode := 0 }

theorem gate_fires_at_nine_tenths : shouldSuppress 0.9 0 = true := by
  norm_num [shouldSuppress]

theorem gate_silent_at_zero : shouldSuppress 0 0 = false := by
  norm_num [shouldSuppress]

/-- C9: when the gate triggers on a result, the output text is the empty
string while language and both duration fields equal what any non-suppressed
result with the same metadata would have produced; the run still exits 0 and
the suppression is reported as a stderr diagnostic carrying the two signal
values, not as a failure. -/
theorem suppression_frame_effect :
    ∀ (r rAccept : STTResult) (argLang : Option String) (dur : ℚ),
      rAccept.language = r.language →
      shouldSuppress r.no_speech_prob r.avg_logprob = true →
      shouldSuppress rAccept.no_speech_prob rAccept.avg_logprob = false →
        (buildOutput r argLang dur).output.text = "" ∧
        (buildOutput r argLang dur).output.language =
          (buildOutput rAccept argLang dur).output.language ∧
        (buildOutput r argLang dur).output.speech_duration_sec =
          (buildOutput rAccept argLang dur).output.speech_duration_sec ∧
        (buildOutput r argLang dur).output.total_duration_sec =
          (buildOutput rAccept argLang dur).output.total_duration_sec ∧
        (buildOutput r argLang dur).exitCode = 0 ∧
        (buildOutput r argLang dur).warnings =
          [Diagnostic.hallucinationDetected r.no_speech_prob
            r.avg_logprob] := by
  intro r rAccept argLang dur hlang hs hs'
  simp [buildOutput, hs, hs', hlang]

theorem suppression_frame_effect_witness :
    (buildOutput ⟨"hallo", some "de", [], 0.9, 0⟩ none (5 / 2)).output.text
        = "" ∧
      (buildOutput ⟨"hallo", some "de", [], 0.9, 0⟩ none (5 / 2)).exitCode
        = 0 := by
  have h := suppression_frame_effect
    ⟨"hallo", some "de", [], 0.9, 0⟩ ⟨"hallo", some "de", [], 0, 0⟩
    none (5 / 2) rfl gate_fires_at_nine_tenths gate_silent_at_zero
  exact ⟨h.1, h.2.2.2.2.1⟩

/-- C10: when the gate triggers, the output's segments field is the empty
list — the `if not is_hallucination` guard of line 168 keeps the initial
`[]` regardless of the segments the engine produced. -/
theorem suppression_clears_segments :
    ∀ (r : STTResult) (argLang : Option String) (dur : ℚ),
      shouldSuppress r.no_speech_prob r.avg_logprob = true →
        (buildOutput r argLang dur).output.segments = [] := by
  intro r argLang dur hs
  simp [buildOutput, hs]

theorem suppression_clears_segments_witness :
    (buildOutput ⟨"hi", some "de", [⟨0, 1, "hi"⟩], 0.9, 0⟩ none
        1).output.segments = [] :=
  suppression_clears_segments ⟨"hi", some "de", [⟨0, 1, "hi"⟩], 0.9, 0⟩
    none 1 gate_fires_at_nine_tenths

/-! ## Accuracy-gating companion (validate-quantized-model.py)

The numeric inference itself (tokenizer, ONNX sessions) is external; what is
embedded is the decision structure: `cosine_similarity`'s error conditions,
the per-sentence loop that collects similarities and skips failed sentences
with a printed notice, the aggregation, and `main`'s exit-code mapping. -/

/-- The fixed similarity threshold 0.98 of validate-quantized-model.py
line 30. -/
def SIMILARITY_THRESHOLD : ℚ := 0.98

/-- Sum of squares of a vector; `np.linalg.norm v = Real.sqrt (sumSq v)`. -/
def sumSq (v : List ℚ) : ℚ :=
  (v.map (fun x => x * x)).sum

/-- Dot product of two vectors, Python's `np.dot`. -/
def dotProd (a b : List ℚ) : ℚ :=
  (List.zipWith (· * ·) a b).sum

open Classical in
/-- Lines 49-71: dimension check, zero-magnitude check (the message is the
fixed part of the interpolated Python strings), then `dot / (norm * norm)`,
with `np.linalg.norm` spelled as the square root of the sum of squares. -/
noncomputable def cosine_similarity (a b : List ℚ) : Except String ℝ :=
  if a.length ≠ b.length then
    .error "Vector dimension mismatch"
  else if Real.sqrt ((sumSq a : ℚ) : ℝ) = 0 ∨
      Real.sqrt ((sumSq b : ℚ) : ℝ) = 0 then
    .error "Cannot compute similarity for zero-magnitude vectors"
  else
    .ok ((dotProd a b : ℚ) /
      (Real.sqrt ((sumSq a : ℚ) : ℝ) * Real.sqrt ((sumSq b : ℚ) : ℝ)))

/-- The per-sentence loop of lines 188-205: a sentence whose comparison
succeeded contributes its similarity; a sentence whose comparison raised is
skipped after the `⚠️ Failed to process` line is printed — returned here as
(similarities, printed failure notices). -/
def collectSims :
    List (String × Except String ℚ) → List ℚ × List (String × String)
  | [] => ([], [])
  | (_, Except.ok s) :: rest =>
    let r := collectSims rest
    (s :: r.1, r.2)
  | (t, Except.error e) :: rest =>
    let r := collectSims rest
    (r.1, (t, e) :: r.2)

/-- The two exception kinds `main` distinguishes (both exit 2). -/
inductive RunError where
  | fileNotFound (msg : String)
  | runtimeError (msg : String)
deriving DecidableEq

/-- The environment `validate_models` runs against: missing model files
(line 146-149), tokenizer/model load failure (lines 155-181), or a completed
run over the test sentences with each sentence's comparison outcome. -/
inductive PipelineEnv where
  | filesMissing (msg : String)
  | loadFailure (msg : String)
  | ran (outcomes : List (String × Except String ℚ))

/-- Python `min` over a nonempty list (the `[]` case never arises). -/
def listMin : List ℚ → ℚ
  | [] => 0
  | x :: xs => xs.foldl min x

/-- Python `max` over a nonempty list (the `[]` case never arises). -/
def listMax : List ℚ → ℚ
  | [] => 0
  | x :: xs => xs.foldl max x

/-- Lines 135-221: `validate_models` raises `FileNotFoundError` for missing
model files, `RuntimeError` for load failures or when every sentence failed,
and otherwise returns `(np.mean(similarities), min, max)`. -/
def validate_models : PipelineEnv → Except RunError (ℚ × ℚ × ℚ)
  | .filesMissing msg => .error (.fileNotFound msg)
  | .loadFailure msg => .error (.runtimeError msg)
  | .ran outcomes =>
    let sims := (collectSims outcomes).1
    if sims.isEmpty then
      .error (.runtimeError "All embedding comparisons failed")
    else
      .ok (sims.sum / (sims.length : ℚ), listMin sims, listMax sims)

/-- Lines 224-254: exit 0 when `avg >= SIMILARITY_THRESHOLD`, exit 1 below
the threshold, exit 2 for `FileNotFoundError` and for every other
exception. -/
def mainExitCode (env : PipelineEnv) : Nat :=
  match validate_models env with
  | .ok (avg, _, _) => if avg ≥ SIMILARITY_THRESHOLD then 0 else 1
  | .error (.fileNotFound _) => 2
  | .error (.runtimeError _) => 2

/-- C7: on a completed validation the exit code is 0 exactly when the
reported average is at least the 0.98 threshold and 1 otherwise, every
runtime/file error exits 2, and the reported average is the mean of the
collected per-sentence similarities. -/
theorem accuracy_gate_exit_codes :
    (∀ (env : PipelineEnv) (a m M : ℚ),
      validate_models env = .ok (a, m, M) →
        mainExitCode env = if a ≥ SIMILARITY_THRESHOLD then 0 else 1) ∧
    (∀ (env : PipelineEnv) (e : RunError),
      validate_models env = .error e → mainExitCode env = 2) ∧
    (∀ (outcomes : List (String × Except String ℚ)) (a m M : ℚ),
      validate_models (.ran outcomes) = .ok (a, m, M) →
        a = ((collectSims outcomes).1).sum /
          (((collectSims outcomes).1).length : ℚ)) := by
  refine ⟨?_, ?_, ?_⟩
  · intro env a m M hv
    simp [mainExitCode, hv]
  · intro env e hv
    cases e <;> simp [mainExitCode, hv]
  · intro outcomes a m M hv
    simp only [validate_models] at hv
    by_cases he : ((collectSims outcomes).1).isEmpty
    · rw [if_pos he] at hv
      exact absurd hv (by simp)
    · rw [if_neg he] at hv
      have := (Except.ok.injEq _ _ |>.mp hv)
      exact congrArg Prod.fst this.symm

theorem validate_single_ok :
    validate_models (.ran [("s", Except.ok 1)]) = .ok (1, 1, 1) := by
  norm_num [validate_models, collectSims, listMin, listMax]

theorem one_clears_threshold :
    (if (1 : ℚ) ≥ SIMILARITY_THRESHOLD then 0 else 1) = 0 := by
  norm_num [SIMILARITY_THRESHOLD]

theorem accuracy_gate_exit_codes_witness :
    mainExitCode (.ran [("s", Except.ok 1)]) = 0 ∧
      mainExitCode (.filesMissing "model files absent") = 2 :=
  ⟨(accuracy_gate_exit_codes.1 (.ran [("s", Except.ok 1)]) 1 1 1
      validate_single_ok).trans one_clears_threshold,
    accuracy_gate_exit_codes.2.1 (.filesMissing "model files absent")
      (.fileNotFound "model files absent") rfl⟩

/-- C8: a zero-magnitude embedding vector makes `cosine_similarity` fail
with the dedicated error for that sentence's comparison instead of
returning a number, and every sentence whose comparison failed is surfaced
in the printed failure notices of the collection loop rather than dropped
silently. -/
theorem cosine_zero_vector_error_surfaced :
    (∀ a b : List ℚ, a.length = b.length → sumSq a = 0 →
      cosine_similarity a b =
        .error "Cannot compute similarity for zero-magnitude vectors") ∧
    (∀ (outcomes : List (String × Except String ℚ)) (t e : String),
      (t, Except.error e) ∈ outcomes →
        (t, e) ∈ (collectSims outcomes).2) := by
  constructor
  · intro a b hlen hz
    have h1 : ¬ a.length ≠ b.length := by simp [hlen]
    rw [cosine_similarity, if_neg h1,
      if_pos (Or.inl (by rw [hz]; simp))]
  · intro outcomes t e
    induction outcomes with
    | nil =>
      intro h
      simp at h
    | cons p rest ih =>
      obtain ⟨t', v⟩ := p
      intro h
      cases v with
      | ok s =>
        have h2 : (t, Except.error e) ∈ rest := by
          rcases List.mem_cons.mp h with heq | hm
          · exact absurd heq (by simp)
          · exact hm
        simp only [collectSims]
        exact ih h2
      | error eh =>
        rcases List.mem_cons.mp h with heq | hm
        · obtain ⟨h1, h2⟩ := Prod.mk.injEq _ _ _ _ |>.mp heq
          obtain rfl := h1
          obtain rfl : e = eh := Except.error.injEq _ _ |>.mp h2
          simp [collectSims]
        · simp only [collectSims]
          exact List.mem_cons_of_mem _ (ih hm)

theorem sumSq_zero_pair : sumSq [0, 0] = 0 := by
  norm_num [sumSq]

theorem cosine_zero_vector_error_surfaced_witness :
    cosine_similarity [0, 0] [3, 4] =
        .error "Cannot compute similarity for zero-magnitude vectors" ∧
      ("s1", "boom") ∈
        (collectSims [("s0", Except.ok 1), ("s1", Except.error "boom")]).2 :=
  ⟨cosine_zero_vector_error_surfaced.1 [0, 0] [3, 4] rfl sumSq_zero_pair,
    cosine_zero_vector_error_surfaced.2
      [("s0", Except.ok 1), ("s1", Except.error "boom")] "s1" "boom"
      (List.mem_cons_of_mem _ (List.mem_cons_self _ _))⟩

end Hablara
